import Mathlib

/-!
Shallow embedding of the rag-pubmed vector storage and retrieval core:
`app/utils/vector_store.py`, `app/services/document_service.py`,
`app/services/llm_service.py`, `app/services/retrieval_service.py`.

Modelling conventions:
* Python floats are modelled as exact rationals (`ℚ`); distance
  comparisons are then exact, so "within floating-point tolerance"
  becomes plain equality.
* A Python `dict` (insertion ordered since 3.7) is an association list;
  assignment to an existing key updates the value in place, assignment
  to a new key appends it at the end.  `list(d.keys())` is the list of
  first components.
* The FAISS `IndexFlatL2` index is modelled by the list of its vectors
  in insertion order; `index.search(q, k)` is modelled by its documented
  exact k-NN contract: the `k` pairs `(ordinal, squared L2 distance)`
  with smallest distance, in ascending distance order (ties broken by
  ordinal, one fixed deterministic choice).  `index.ntotal` is the
  length of the vector list.
* The filesystem at the store path is a `Disk` record holding the two
  artifacts (`<path>.index`, `<path>.pkl`); each artifact can be
  missing, present but failing to deserialize, or present and good.
  `faiss.write_index` / `faiss.read_index` and `pickle.dump` /
  `pickle.load` are modelled as lossless inverse pairs.
* External gateways (SentenceTransformers embedding, the OpenAI chat
  call) and nondeterministic inputs (uuid generation, wall-clock time,
  write success) are function or value parameters of the operations.
-/

namespace RagPubmed

/-- A JSON-like value stored in the document mapping: the values of a
`doc.dict()` produced from a pydantic `Document` (strings, numbers, and
the string-to-string metadata mapping). -/
inductive Value where
  | str : String → Value
  | num : ℚ → Value
  | strMap : List (String × String) → Value
deriving DecidableEq, Repr

/-- The dictionary form of one stored document (`doc.dict()` minus the
embedding key). -/
abbrev DocDict := List (String × Value)

/-- Python dict assignment `d[k] = v`: an existing key keeps its
position and gets the new value, a new key is appended at the end. -/
def dictInsert {β : Type} (k : String) (v : β) : List (String × β) → List (String × β)
  | [] => [(k, v)]
  | (k0, v0) :: rest => if k0 = k then (k, v) :: rest else (k0, v0) :: dictInsert k v rest

/-- Python `d.get(k)`: the value at the first (unique) occurrence of `k`. -/
def dictGet {β : Type} (k : String) : List (String × β) → Option β
  | [] => none
  | (k0, v0) :: rest => if k0 = k then some v0 else dictGet k rest

/-- Python `list(d.keys())`: the insertion-ordered key sequence. -/
def dictKeys {β : Type} (d : List (String × β)) : List String := d.map Prod.fst

/-- `app/models/document.py` `Document`: id, title, content, metadata,
and an optional embedding vector. -/
structure Document where
  id : String
  title : String
  content : String
  metadata : List (String × String) := []
  embedding : Option (List ℚ) := none
deriving DecidableEq, Repr

/-- `doc.dict()` with the `embedding` key popped
(`vector_store.py` lines 84-85, `document_service.py` lines 84-85). -/
def Document.dictNoEmbedding (d : Document) : DocDict :=
  [("id", Value.str d.id), ("title", Value.str d.title),
   ("content", Value.str d.content), ("metadata", Value.strMap d.metadata)]

namespace Settings

/-- `app/core/config.py`: `TOP_K_RETRIEVAL: int = 2`. -/
def TOP_K_RETRIEVAL : ℕ := 2

/-- `app/core/config.py`: `EMBEDDING_DIMENSION: int = 384`. -/
def EMBEDDING_DIMENSION : ℕ := 384

end Settings

/-- In-memory state of `VectorStore`: the configured dimension, the
FAISS index (its own dimension and its vectors in insertion order), and
the `documents` dict. -/
structure VectorStore where
  dimension : ℕ
  indexDim : ℕ
  indexVecs : List (List ℚ)
  documents : List (String × DocDict)
deriving DecidableEq, Repr

/-- `VectorStore._create_new_index`: a fresh `IndexFlatL2(self.dimension)`
and an empty documents dict. -/
def createNewIndex (dimension : ℕ) : VectorStore :=
  { dimension := dimension, indexDim := dimension, indexVecs := [], documents := [] }

/-- Squared Euclidean (L2) distance, the metric of `IndexFlatL2`. -/
def sqDist (q v : List ℚ) : ℚ := (q.zipWith (fun a b => (a - b) ^ 2) v).sum

/-- Ranking order of FAISS search results: ascending distance, ties
broken by ascending ordinal (a fixed deterministic choice; FAISS fixes
some deterministic tie order for a given index state). -/
def distRank (a b : ℕ × ℚ) : Prop := a.2 < b.2 ∨ (a.2 = b.2 ∧ a.1 ≤ b.1)

instance : DecidableRel distRank := fun a b => by
  unfold distRank; exact inferInstance

instance : IsTotal (ℕ × ℚ) distRank := by
  constructor
  intro a b
  rcases lt_trichotomy a.2 b.2 with h | h | h
  · exact Or.inl (Or.inl h)
  · rcases Nat.le_total a.1 b.1 with h1 | h1
    · exact Or.inl (Or.inr ⟨h, h1⟩)
    · exact Or.inr (Or.inr ⟨h.symm, h1⟩)
  · exact Or.inr (Or.inl h)

instance : IsTrans (ℕ × ℚ) distRank := by
  constructor
  intro a b c hab hbc
  rcases hab with h1 | ⟨e1, l1⟩
  · rcases hbc with h2 | ⟨e2, l2⟩
    · exact Or.inl (h1.trans h2)
    · exact Or.inl (lt_of_lt_of_le h1 e2.le)
  · rcases hbc with h2 | ⟨e2, l2⟩
    · exact Or.inl (lt_of_le_of_lt e1.le h2)
    · exact Or.inr ⟨e1.trans e2, l1.trans l2⟩

/-- Model of `faiss.IndexFlatL2.search` on an index holding `vecs`:
the `k` nearest stored vectors to `q` as `(ordinal, squared distance)`
pairs, ascending by distance. -/
def faissSearch (vecs : List (List ℚ)) (q : List ℚ) (k : ℕ) : List (ℕ × ℚ) :=
  ((vecs.enum.map (fun p => (p.1, sqDist q p.2))).insertionSort distRank).take k

/-- `VectorStore.search` (vector_store.py lines 100-129): empty result on
an empty index; otherwise FAISS search with `min(top_k, ntotal)`, then
each returned ordinal is resolved through
`list(self.documents.keys())[idx]` to a document id.  Since the
requested count never exceeds `ntotal`, the flat index returns no `-1`
entries and the `idx != -1` filter never fires; in the maintained
states every ordinal is below the key-sequence length, so the `get?`
indexing is exact there. -/
def VectorStore.search (s : VectorStore) (q : List ℚ) (top_k : ℕ) : List (String × ℚ) :=
  if s.indexVecs.length = 0 then []
  else
    (faissSearch s.indexVecs q (min top_k s.indexVecs.length)).filterMap
      (fun r => ((dictKeys s.documents).get? r.1).map (fun id => (id, r.2)))

/-- `VectorStore.get_document`: `self.documents.get(doc_id)`. -/
def VectorStore.get_document (s : VectorStore) (doc_id : String) : Option DocDict :=
  dictGet doc_id s.documents

/-- One on-disk artifact: missing, present but failing to deserialize,
or present with its deserialized content. -/
inductive Artifact (α : Type) where
  | missing : Artifact α
  | corrupt : Artifact α
  | good : α → Artifact α
deriving DecidableEq, Repr

/-- The two artifacts at the store path: `<path>.index` (the FAISS
index: its dimension and vectors) and `<path>.pkl` (the pickled
documents dict). -/
structure Disk where
  indexFile : Artifact (ℕ × List (List ℚ))
  docsFile : Artifact (List (String × DocDict))
deriving DecidableEq, Repr

/-- A location with no prior artifacts. -/
def emptyDisk : Disk := { indexFile := Artifact.missing, docsFile := Artifact.missing }

/-- `VectorStore._initialize_store` (lines 33-51): if both artifacts
exist and both deserialize, the store is reconstructed from them;
if either is missing, or either fails to deserialize (the `except`
branch), `_create_new_index` is used instead. -/
def initializeStore (dimension : ℕ) (disk : Disk) : VectorStore :=
  match disk.indexFile, disk.docsFile with
  | Artifact.good idx, Artifact.good docs =>
      { dimension := dimension, indexDim := idx.1, indexVecs := idx.2, documents := docs }
  | _, _ => createNewIndex dimension

/-- The artifacts produced by a successful `_save`: the whole index and
the whole documents dict, rewritten in full. -/
def writeArtifacts (s : VectorStore) : Disk :=
  { indexFile := Artifact.good (s.indexDim, s.indexVecs),
    docsFile := Artifact.good s.documents }

/-- `VectorStore._save` (lines 143-154): on success both artifacts are
rewritten; any write exception is caught and logged, leaving the
previous artifacts in place and the in-memory state untouched.  The
success of the write is the environment parameter `writeOk`. -/
def saveStore (writeOk : Bool) (s : VectorStore) (disk : Disk) : Disk :=
  if writeOk then writeArtifacts s else disk

/-- Whole-system state: the in-memory store, the artifacts on disk at
the store path, and the raw-document JSON files under
`RAW_DOCUMENTS_PATH` (keyed by document id). -/
structure World where
  store : VectorStore
  disk : Disk
  rawDocs : List (String × DocDict)
deriving DecidableEq, Repr

/-- The loop of `VectorStore.add_documents` (lines 76-86): walk the
batch in order; a document without an embedding is skipped entirely;
a document with one contributes its embedding, its id, and a
`self.documents[doc.id] = doc_copy` dict assignment. Returns the
accumulated embeddings, the accumulated ids, and the updated dict. -/
def addScan (dict : List (String × DocDict)) :
    List Document → List (List ℚ) × List String × List (String × DocDict)
  | [] => ([], [], dict)
  | d :: rest =>
    match d.embedding with
    | none => addScan dict rest
    | some e =>
      let r := addScan (dictInsert d.id d.dictNoEmbedding dict) rest
      (e :: r.1, d.id :: r.2.1, r.2.2)

/-- `VectorStore.add_documents` (lines 59-98) together with the `_save`
it triggers: early return `[]` on an empty batch; early return `[]`
(without saving) when no document carried an embedding; otherwise the
embeddings are appended to the index, the dict updates take effect,
`_save` runs, and the added ids are returned. -/
def add_documents (writeOk : Bool) (w : World) (docs : List Document) :
    World × List String :=
  if docs.isEmpty then (w, [])
  else
    let r := addScan w.store.documents docs
    if r.1.isEmpty then
      ({ w with store := { w.store with documents := r.2.2 } }, [])
    else
      let store1 := { w.store with
        indexVecs := w.store.indexVecs ++ r.1, documents := r.2.2 }
      ({ w with store := store1, disk := saveStore writeOk store1 w.disk }, r.2.1)

/-- `DocumentService.ingest_documents` (lines 29-77), for inputs already
in `Document` form (the `dict` / `DocumentInput` branches construct a
`Document` with a fresh uuid in the same way): empty input returns `[]`
at once; otherwise missing ids are filled from the uuid supply `idGen`,
the whole batch of contents goes to the embedding gateway in one call,
and only then are raw documents written and `add_documents` invoked.
An embedding failure propagates before any state is touched. -/
def ingest_documents (embedder : List String → Except String (List (List ℚ)))
    (idGen : ℕ → String) (writeOk : Bool) (w : World) (docs : List Document) :
    World × Except String (List String) :=
  if docs.isEmpty then (w, Except.ok [])
  else
    let docObjects := docs.enum.map
      (fun p => if p.2.id = "" then { p.2 with id := idGen p.1 } else p.2)
    match embedder (docObjects.map Document.content) with
    | Except.error e => (w, Except.error e)
    | Except.ok embs =>
      let withEmb := docObjects.zipWith (fun d e => { d with embedding := some e }) embs
      let rawDocs1 := withEmb.foldl (fun rd d => dictInsert d.id d.dictNoEmbedding rd) w.rawDocs
      let w1 := { w with rawDocs := rawDocs1 }
      let r := add_documents writeOk w1 withEmb
      (r.1, Except.ok r.2)

/-- `top_k = top_k or settings.TOP_K_RETRIEVAL`
(document_service.py line 101): Python `or` substitutes the default for
every falsy value, i.e. for `None` and for `0` alike. -/
def effectiveTopK : Option ℕ → ℕ
  | none => Settings.TOP_K_RETRIEVAL
  | some v => if v = 0 then Settings.TOP_K_RETRIEVAL else v

/-- `DocumentService.retrieve_documents` (lines 90-118): embed the
query, search, then hydrate each `(doc_id, score)` result; a failed or
falsy (empty-dict) lookup is skipped, a successful one gets
`doc_data['similarity_score'] = score` and is appended. -/
def retrieve_documents (embedQuery : String → List ℚ) (w : World) (query : String)
    (top_k : Option ℕ) : List DocDict :=
  let k := effectiveTopK top_k
  let results := w.store.search (embedQuery query) k
  results.filterMap (fun r =>
    match w.store.get_document r.1 with
    | none => none
    | some d =>
      if d.isEmpty then none
      else some (dictInsert "similarity_score" (Value.num r.2) d))

/-- Rendering of a stored `Value` into prompt text (the model of the
Python f-string interpolation in `_prepare_context`; rationals are
rendered as exact fractions rather than `:.4f`). -/
def renderValue : Value → String
  | Value.str s => s
  | Value.num q => toString q.num ++ "/" ++ toString q.den
  | Value.strMap _ => "<metadata>"

/-- Python `doc.get(k, default)` on a stored document dict. -/
def getD (d : DocDict) (k : String) (v : Value) : Value := (dictGet k d).getD v

/-- `LLMService._prepare_context` (llm_service.py lines 78-97): one
block of lines per document, numbered from 1, joined by newlines. -/
def prepareContext (documents : List DocDict) : String :=
  String.intercalate "\n"
    ((documents.enum.map (fun p =>
      ["Document " ++ toString (p.1 + 1) ++ ":",
       "Title: " ++ renderValue (getD p.2 "title" (Value.str "Untitled")),
       "Content: " ++ renderValue (getD p.2 "content" (Value.str "")),
       "Relevance Score: " ++ renderValue (getD p.2 "similarity_score" (Value.num 0)),
       ""])).flatten)

/-- `LLMService._create_system_prompt` (lines 99-120); contractions of
the source text are expanded, whitespace is normalised. -/
def createSystemPrompt (elaborate : Bool) : String :=
  if elaborate then
    "You are a medical research assistant with expertise in genetics and medicine. " ++
    "Your task is to provide comprehensive, detailed answers based on the scientific documents provided as context. " ++
    "Include relevant medical terminology and explain concepts thoroughly. " ++
    "Always cite the specific documents you are drawing information from in your answer. " ++
    "If the context does not contain enough information to answer fully, clearly state this limitation."
  else
    "You are a medical research assistant with expertise in genetics and medicine. " ++
    "Your task is to answer questions concisely based on the scientific documents provided as context. " ++
    "Be accurate and focus on the key information relevant to the query. " ++
    "Always cite the specific documents you are drawing information from in your answer. " ++
    "If the context does not contain enough information to answer the query, clearly state this limitation."

/-- `LLMService._create_user_prompt` (lines 122-138). -/
def createUserPrompt (query context : String) : String :=
  "Question: " ++ query ++
  "\n\nContext information from relevant documents:\n" ++ context ++
  "\n\nPlease answer the question based on the context information provided above."

/-- `LLMService.generate_answer` (lines 31-76): with no API key
configured, a fixed error string is returned; otherwise the chat
completion gateway is called and a successful answer is stripped while
any exception is caught and rendered as an error string.  The gateway
call outcome is the function parameter `chatCompletion` (system prompt
and user prompt to outcome). -/
def generate_answer (apiKey : Option String)
    (chatCompletion : String → String → Except String String)
    (query : String) (contextDocs : List DocDict) (elaborate : Bool) : String :=
  match apiKey with
  | none => "Error: OpenAI API key not configured. Please set OPENAI_API_KEY."
  | some _ =>
    let context := prepareContext contextDocs
    let systemPrompt := createSystemPrompt elaborate
    let userPrompt := createUserPrompt query context
    match chatCompletion systemPrompt userPrompt with
    | Except.ok answer => answer.trim
    | Except.error e => "Error generating answer: " ++ e

/-- `app/models/response.py` `RetrievedDocument`, with field values as
the stored-dict values they are read from. -/
structure RetrievedDocument where
  id : Value
  title : Value
  content : Value
  similarity_score : Value
  metadata : Option Value
deriving DecidableEq, Repr

/-- The conversion in `RetrievalService.process_query` (lines 37-45):
`doc.get` with the source defaults. -/
def toRetrievedDocument (d : DocDict) : RetrievedDocument :=
  { id := getD d "id" (Value.str ""), title := getD d "title" (Value.str ""),
    content := getD d "content" (Value.str ""),
    similarity_score := getD d "similarity_score" (Value.num 0),
    metadata := dictGet "metadata" d }

/-- `app/models/response.py` `QueryResponse`. -/
structure QueryResponse where
  query : String
  answer : String
  retrieved_documents : List RetrievedDocument
  processing_time : ℚ
deriving DecidableEq, Repr

/-- `RetrievalService.process_query` (retrieval_service.py lines
19-62): retrieve, convert to response models, generate the answer, and
assemble the response (wall-clock time is the parameter `elapsed`). -/
def process_query (embedQuery : String → List ℚ) (apiKey : Option String)
    (chatCompletion : String → String → Except String String)
    (w : World) (query : String) (top_k : Option ℕ) (elaborate : Bool)
    (elapsed : ℚ) : QueryResponse :=
  let retrievedDocs := retrieve_documents embedQuery w query top_k
  let docModels := retrievedDocs.map toRetrievedDocument
  let answer := generate_answer apiKey chatCompletion query retrievedDocs elaborate
  { query := query, answer := answer, retrieved_documents := docModels,
    processing_time := elapsed }

/-! ### Reachability and batch bookkeeping -/

/-- The state a `DocumentService` starts from at a location with no
prior artifacts: a `VectorStore(dimension)` whose `_initialize_store`
finds nothing on disk. -/
def initialWorld (dimension : ℕ) : World :=
  { store := initializeStore dimension emptyDisk, disk := emptyDisk, rawDocs := [] }

/-- The store state after a sequence of `add_documents` calls on a
fresh store. -/
def runBatches (dimension : ℕ) (batches : List (List Document)) : World :=
  batches.foldl (fun w b => (add_documents true w b).1) (initialWorld dimension)

/-- The embeddings one batch contributes to the index, in order. -/
def batchEmbeddings (docs : List Document) : List (List ℚ) :=
  docs.filterMap Document.embedding

/-- The ids one batch contributes (ids of the documents that carry an
embedding), in order. -/
def batchIds (docs : List Document) : List String :=
  docs.filterMap (fun d => d.embedding.map (fun _ => d.id))

/-- The dict entries one batch contributes, in order. -/
def batchEntries (docs : List Document) : List (String × DocDict) :=
  docs.filterMap (fun d => d.embedding.map (fun _ => (d.id, d.dictNoEmbedding)))

/-- The identifiers inserted into the Vector Index by a sequence of
batches, in insertion order. -/
def insertedIds (batches : List (List Document)) : List String :=
  (batches.map batchIds).flatten

/-- Whether a search result can be hydrated in
`DocumentService.retrieve_documents`: its id resolves in the document
mapping to a (truthy, i.e. nonempty) dict. -/
def hydratable (w : World) (r : String × ℚ) : Bool :=
  match w.store.get_document r.1 with
  | none => false
  | some d => !d.isEmpty

/-- The hydrated form of a search result: the stored dict with the
distance attached under `similarity_score`. -/
def hydrate (w : World) (r : String × ℚ) : DocDict :=
  dictInsert "similarity_score" (Value.num r.2) ((w.store.get_document r.1).getD [])

/-! ### Concrete states used by witnesses -/

/-- A one-dimensional document with a given embedding value. -/
def demoDoc (i : String) (v : ℚ) : Document :=
  { id := i, title := "t" ++ i, content := "c" ++ i, metadata := [], embedding := some [v] }

/-- A store holding two one-dimensional documents. -/
def demoWorld : World :=
  (add_documents true (initialWorld 1) [demoDoc "a" 0, demoDoc "b" 2]).1

/-- The two-batch ingestion scenario (two then three documents). -/
def demoBatches : List (List Document) :=
  [[demoDoc "a" 0, demoDoc "b" 1], [demoDoc "c" 2, demoDoc "d" 3, demoDoc "e" 4]]

/-- The two-document demo store written out directly (the state
`demoWorld` reaches). -/
def demoStoreDirect : VectorStore :=
  { dimension := 1, indexDim := 1, indexVecs := [[0], [2]],
    documents := [("a", (demoDoc "a" 0).dictNoEmbedding),
                  ("b", (demoDoc "b" 2).dictNoEmbedding)] }

/-- The demo store as a whole-system state. -/
def demoWorldDirect : World :=
  { store := demoStoreDirect, disk := emptyDisk, rawDocs := [] }

/-- An embedding gateway whose batch call always fails. -/
def failEmbedder : List String → Except String (List (List ℚ)) :=
  fun _ => Except.error "boom"

/-! ### Dictionary lemmas -/

lemma dictKeys_append {β : Type} (d1 d2 : List (String × β)) :
    dictKeys (d1 ++ d2) = dictKeys d1 ++ dictKeys d2 := by
  simp [dictKeys]

lemma dictInsert_of_not_mem {β : Type} (k : String) (v : β) (d : List (String × β))
    (h : k ∉ dictKeys d) : dictInsert k v d = d ++ [(k, v)] := by
  induction d with
  | nil => rfl
  | cons p t ih =>
    rcases p with ⟨k0, v0⟩
    have hk : k0 ≠ k := by
      intro he
      exact h (by simp [dictKeys, he])
    have ht : k ∉ dictKeys t := by
      intro hm
      exact h (by simp [dictKeys] at hm ⊢; exact Or.inr hm)
    simp [dictInsert, hk, ih ht]

lemma dictGet_dictInsert_self {β : Type} (k : String) (v : β) (d : List (String × β)) :
    dictGet k (dictInsert k v d) = some v := by
  induction d with
  | nil => simp [dictInsert, dictGet]
  | cons p t ih =>
    rcases p with ⟨k0, v0⟩
    by_cases h : k0 = k
    · subst h; simp [dictInsert, dictGet]
    · simp [dictInsert, dictGet, h, ih]

/-! ### Batch bookkeeping lemmas -/

lemma batchIds_cons_none {d : Document} (t : List Document) (he : d.embedding = none) :
    batchIds (d :: t) = batchIds t := by
  simp [batchIds, List.filterMap_cons, he]

lemma batchIds_cons_some {d : Document} (t : List Document) {e : List ℚ}
    (he : d.embedding = some e) : batchIds (d :: t) = d.id :: batchIds t := by
  simp [batchIds, List.filterMap_cons, he]

lemma batch_lengths (docs : List Document) :
    (batchIds docs).length = (batchEmbeddings docs).length ∧
    (batchEntries docs).length = (batchEmbeddings docs).length := by
  induction docs with
  | nil => exact ⟨rfl, rfl⟩
  | cons d t ih =>
    rcases he : d.embedding with _ | e <;>
      simp [batchIds, batchEmbeddings, batchEntries, List.filterMap_cons, he] at ih ⊢ <;>
        exact ih

lemma dictKeys_batchEntries (docs : List Document) :
    dictKeys (batchEntries docs) = batchIds docs := by
  induction docs with
  | nil => rfl
  | cons d t ih =>
    rcases he : d.embedding with _ | e <;>
      simp [batchIds, batchEntries, dictKeys, List.filterMap_cons, he] at ih ⊢ <;>
        exact ih

lemma batchIds_of_all_some (docs : List Document)
    (h : ∀ d ∈ docs, d.embedding.isSome) : batchIds docs = docs.map Document.id := by
  induction docs with
  | nil => rfl
  | cons d t ih =>
    rcases he : d.embedding with _ | e
    · have := h d (List.mem_cons_self d t)
      rw [he] at this
      cases this
    · rw [batchIds_cons_some t he, List.map_cons,
        ih (fun x hx => h x (List.mem_cons_of_mem d hx))]

lemma batchEmbeddings_ne_nil {d : Document} (t : List Document)
    (h : d.embedding.isSome) : batchEmbeddings (d :: t) ≠ [] := by
  rcases he : d.embedding with _ | e
  · rw [he] at h; cases h
  · simp [batchEmbeddings, List.filterMap_cons, he]

/-! ### Characterization of the `add_documents` loop -/

lemma addScan_spec : ∀ (docs : List Document) (dict : List (String × DocDict)),
    (batchIds docs).Nodup → (∀ id ∈ batchIds docs, id ∉ dictKeys dict) →
    addScan dict docs = (batchEmbeddings docs, batchIds docs, dict ++ batchEntries docs) := by
  intro docs
  induction docs with
  | nil =>
    intro dict _ _
    simp [addScan, batchEmbeddings, batchIds, batchEntries]
  | cons d t ih =>
    intro dict hnd hfr
    rcases he : d.embedding with _ | e
    · rw [batchIds_cons_none t he] at hnd hfr
      simp [addScan, he, batchEmbeddings, batchIds, batchEntries, List.filterMap_cons,
        ih dict hnd hfr]
    · rw [batchIds_cons_some t he] at hnd hfr
      have hfresh : d.id ∉ dictKeys dict := hfr d.id (List.mem_cons_self _ _)
      have hnd1 : (batchIds t).Nodup := hnd.of_cons
      have hdid : d.id ∉ batchIds t := (List.nodup_cons.mp hnd).1
      have hfr1 : ∀ id ∈ batchIds t,
          id ∉ dictKeys (dictInsert d.id d.dictNoEmbedding dict) := by
        intro id hm hcontra
        rw [dictInsert_of_not_mem _ _ _ hfresh, dictKeys_append] at hcontra
        rcases List.mem_append.mp hcontra with h1 | h1
        · exact hfr id (List.mem_cons_of_mem _ hm) h1
        · simp [dictKeys] at h1
          exact hdid (h1 ▸ hm)
      have hrec := ih (dictInsert d.id d.dictNoEmbedding dict) hnd1 hfr1
      simp only [addScan, he, hrec]
      rw [dictInsert_of_not_mem _ _ _ hfresh]
      simp [batchEmbeddings, batchIds, batchEntries, List.filterMap_cons, he,
        List.append_assoc]

/-- The state after `add_documents` on a nonempty batch with at least
one embedded document and fresh, pairwise-distinct identifiers. -/
lemma add_documents_eq (writeOk : Bool) (w : World) (docs : List Document)
    (hne : docs ≠ []) (hsome : batchEmbeddings docs ≠ [])
    (hnd : (batchIds docs).Nodup)
    (hfr : ∀ id ∈ batchIds docs, id ∉ dictKeys w.store.documents) :
    add_documents writeOk w docs =
      ({ store := { w.store with
            indexVecs := w.store.indexVecs ++ batchEmbeddings docs,
            documents := w.store.documents ++ batchEntries docs },
         disk := saveStore writeOk
           { w.store with
             indexVecs := w.store.indexVecs ++ batchEmbeddings docs,
             documents := w.store.documents ++ batchEntries docs } w.disk,
         rawDocs := w.rawDocs }, batchIds docs) := by
  have hde : ¬(docs.isEmpty = true) := by
    simp [List.isEmpty_iff]
    exact hne
  have hse : ¬((batchEmbeddings docs).isEmpty = true) := by
    simp [List.isEmpty_iff]
    exact hsome
  simp only [add_documents, addScan_spec docs w.store.documents hnd hfr,
    if_neg hde, if_neg hse]

lemma add_documents_spec (writeOk : Bool) (w : World) (docs : List Document)
    (hnd : (batchIds docs).Nodup)
    (hfr : ∀ id ∈ batchIds docs, id ∉ dictKeys w.store.documents) :
    ((add_documents writeOk w docs).1).store.indexVecs =
        w.store.indexVecs ++ batchEmbeddings docs ∧
    ((add_documents writeOk w docs).1).store.documents =
        w.store.documents ++ batchEntries docs := by
  by_cases hde : docs = []
  · subst hde
    simp [add_documents, batchEmbeddings, batchEntries]
  by_cases hse : batchEmbeddings docs = []
  · have hbi : batchIds docs = [] := by
      have := (batch_lengths docs).1
      rw [hse] at this
      exact List.length_eq_zero.mp (by simpa using this)
    have hbn : batchEntries docs = [] := by
      have := (batch_lengths docs).2
      rw [hse] at this
      exact List.length_eq_zero.mp (by simpa using this)
    have hde2 : ¬(docs.isEmpty = true) := by
      simp [List.isEmpty_iff]
      exact hde
    simp only [add_documents, addScan_spec docs w.store.documents hnd hfr,
      if_neg hde2, hse, hbn, List.isEmpty_nil, if_pos]
    simp
  · rw [add_documents_eq writeOk w docs hde hse hnd hfr]
    exact ⟨rfl, rfl⟩

/-- The in-memory outcome of `add_documents` does not depend on whether
the `_save` write succeeds. -/
lemma add_documents_mem_writeOk (w : World) (docs : List Document) :
    ((add_documents false w docs).1).store = ((add_documents true w docs).1).store ∧
    ((add_documents false w docs).1).rawDocs = ((add_documents true w docs).1).rawDocs ∧
    (add_documents false w docs).2 = (add_documents true w docs).2 := by
  by_cases h : docs.isEmpty
  · simp [add_documents, h]
  · by_cases h2 : (addScan w.store.documents docs).1.isEmpty <;>
      simp [add_documents, h, h2]

/-! ### Reachable stores -/

lemma runBatches_aux : ∀ (batches : List (List Document)) (w : World),
    (dictKeys w.store.documents ++ insertedIds batches).Nodup →
    dictKeys ((batches.foldl (fun w1 b => (add_documents true w1 b).1) w).store.documents) =
      dictKeys w.store.documents ++ insertedIds batches ∧
    (batches.foldl (fun w1 b => (add_documents true w1 b).1) w).store.indexVecs.length =
      w.store.indexVecs.length + (insertedIds batches).length := by
  intro batches
  induction batches with
  | nil =>
    intro w _
    simp [insertedIds]
  | cons b bs ih =>
    intro w h
    have hins : insertedIds (b :: bs) = batchIds b ++ insertedIds bs := by
      simp [insertedIds]
    rw [hins] at h ⊢
    rw [← List.append_assoc] at h
    have hsplit := List.nodup_append.mp h
    have hsplit1 := List.nodup_append.mp hsplit.1
    have hnd : (batchIds b).Nodup := hsplit1.2.1
    have hfr : ∀ id ∈ batchIds b, id ∉ dictKeys w.store.documents := by
      intro id hm hk
      exact hsplit1.2.2 hk hm
    obtain ⟨hvecs, hdocs⟩ := add_documents_spec true w b hnd hfr
    have hkeys1 : dictKeys ((add_documents true w b).1.store.documents) =
        dictKeys w.store.documents ++ batchIds b := by
      rw [hdocs, dictKeys_append, dictKeys_batchEntries]
    have hlen1 : ((add_documents true w b).1).store.indexVecs.length =
        w.store.indexVecs.length + (batchIds b).length := by
      rw [hvecs, List.length_append, (batch_lengths b).1]
    have hnodup1 : (dictKeys ((add_documents true w b).1.store.documents) ++
        insertedIds bs).Nodup := by
      rw [hkeys1]
      exact h
    obtain ⟨hk, hl⟩ := ih ((add_documents true w b).1) hnodup1
    constructor
    · rw [List.foldl_cons, hk, hkeys1, List.append_assoc]
    · rw [List.foldl_cons, hl, hlen1, List.length_append]
      omega

/-! ### Search lemmas -/

lemma distRank_le {a b : ℕ × ℚ} (h : distRank a b) : a.2 ≤ b.2 := by
  rcases h with h | ⟨h, _⟩
  · exact le_of_lt h
  · exact le_of_eq h

lemma pairwise_snd_filterMap {g : ℕ × ℚ → Option (String × ℚ)}
    (hg : ∀ a x, g a = some x → x.2 = a.2) :
    ∀ {l : List (ℕ × ℚ)}, l.Pairwise distRank →
      (l.filterMap g).Pairwise (fun a b : String × ℚ => a.2 ≤ b.2) := by
  intro l hl
  induction hl with
  | nil => simp
  | @cons a t hrel htail ih =>
    rw [List.filterMap_cons]
    rcases hga : g a with _ | x
    · exact ih
    · refine List.Pairwise.cons ?_ ih
      intro y hy
      rcases List.mem_filterMap.mp hy with ⟨b, hbmem, hgb⟩
      rw [hg a x hga, hg b y hgb]
      exact distRank_le (hrel b hbmem)

/-! ### Claims -/

/-- C1: Positional invariant.  For every store state reachable from a
fresh store by a sequence of `add_documents` calls whose inserted
document identifiers are globally unique (the `Document` data-model
invariant), the insertion-ordered key sequence of the document mapping
is exactly the sequence of identifiers inserted into the vector index,
the index holds exactly that many vectors, and hence for every ordinal
`i` below the number of indexed vectors, resolving ordinal `i` through
`list(self.documents.keys())[i]` (as `search` does) yields the `i`-th
identifier inserted into the index. -/
theorem positional_invariant (dimension : ℕ) (batches : List (List Document))
    (huniq : (insertedIds batches).Nodup) :
    dictKeys ((runBatches dimension batches).store.documents) = insertedIds batches ∧
    (runBatches dimension batches).store.indexVecs.length = (insertedIds batches).length ∧
    (∀ i : ℕ, i < (runBatches dimension batches).store.indexVecs.length →
      (dictKeys ((runBatches dimension batches).store.documents)).get? i =
        (insertedIds batches).get? i) := by
  simp only [runBatches]
  have h0 : dictKeys ((initialWorld dimension).store.documents) = [] := rfl
  have h1 : (initialWorld dimension).store.indexVecs.length = 0 := rfl
  have haux := runBatches_aux batches (initialWorld dimension) (by rw [h0]; simpa using huniq)
  rw [h0, h1, List.nil_append] at haux
  refine ⟨haux.1, by simpa using haux.2, ?_⟩
  intro i _
  rw [haux.1]

/-- C1 witness: the two-batch scenario (2 then 3 documents) has
pairwise distinct identifiers, and the invariant conclusion holds
for it. -/
theorem positional_invariant_witness :
    (insertedIds demoBatches).Nodup ∧
    dictKeys ((runBatches 1 demoBatches).store.documents) = insertedIds demoBatches :=
  ⟨by decide, (positional_invariant 1 demoBatches (by decide)).1⟩

/-- C2: For every index state (with the key sequence and the index in
their maintained positional correspondence), every query vector and
every `k`, `search` returns at most `min(k, ntotal)` results, ordered
by ascending squared Euclidean distance (nearest first), and returns
the empty sequence whenever the index holds zero vectors, regardless
of `k`. -/
theorem search_bounded_sorted (s : VectorStore) (q : List ℚ) (k : ℕ)
    (hwf : (dictKeys s.documents).length = s.indexVecs.length) :
    (s.search q k).length ≤ min k s.indexVecs.length ∧
    List.Sorted (fun a b : String × ℚ => a.2 ≤ b.2) (s.search q k) ∧
    (s.indexVecs.length = 0 → s.search q k = []) := by
  by_cases h0 : s.indexVecs.length = 0
  · refine ⟨?_, ?_, fun _ => ?_⟩ <;> simp [VectorStore.search, h0]
  · have hs : s.search q k = (faissSearch s.indexVecs q (min k s.indexVecs.length)).filterMap
        (fun r => ((dictKeys s.documents).get? r.1).map (fun id => (id, r.2))) := by
      simp [VectorStore.search, h0]
    refine ⟨?_, ?_, fun hc => absurd hc h0⟩
    · rw [hs]
      have hlen1 := List.length_filterMap_le
        (fun r : ℕ × ℚ => ((dictKeys s.documents).get? r.1).map (fun id => (id, r.2)))
        (faissSearch s.indexVecs q (min k s.indexVecs.length))
      have hlen2 : (faissSearch s.indexVecs q (min k s.indexVecs.length)).length ≤
          min k s.indexVecs.length := by
        unfold faissSearch
        rw [List.length_take]
        exact min_le_left _ _
      exact le_trans hlen1 hlen2
    · rw [hs]
      apply pairwise_snd_filterMap
      · intro a x hx
        rcases ho : (dictKeys s.documents).get? a.1 with _ | id
        · rw [ho] at hx
          cases hx
        · rw [ho] at hx
          simp at hx
          rw [← hx]
      · unfold faissSearch
        exact List.Pairwise.sublist (List.take_sublist _ _)
          (List.sorted_insertionSort distRank _)

/-- C2 witness: the conclusion holds for the two-document demo store
(whose key sequence and index are aligned) at `k = 1`. -/
theorem search_bounded_sorted_witness :
    (dictKeys demoStoreDirect.documents).length = demoStoreDirect.indexVecs.length ∧
    (demoStoreDirect.search [0] 1).length ≤ min 1 demoStoreDirect.indexVecs.length :=
  ⟨by decide, (search_bounded_sorted demoStoreDirect [0] 1 (by decide)).1⟩

/-- C3: Round-trip.  Saving the store's two artifacts and loading them
back through a new `VectorStore` of the same configured dimension at
the same path reconstructs the very same store, so its search results
(identifiers and distances) are identical to the pre-save results for
every query; with exact arithmetic, "within floating-point tolerance"
is equality. -/
theorem save_load_roundtrip (s : VectorStore) (disk : Disk) (q : List ℚ) (k : ℕ) :
    initializeStore s.dimension (saveStore true s disk) = s ∧
    (initializeStore s.dimension (saveStore true s disk)).search q k = s.search q k := by
  have h : initializeStore s.dimension (saveStore true s disk) = s := by
    cases s
    rfl
  exact ⟨h, by rw [h]⟩

/-- C5: Load fail-open.  If either on-disk artifact is missing or fails
to deserialize, initializing the store yields the fresh empty store of
the configured dimension (no error is raised). -/
theorem load_fail_open (dimension : ℕ) (disk : Disk)
    (h : (∀ a, disk.indexFile ≠ Artifact.good a) ∨
      (∀ b, disk.docsFile ≠ Artifact.good b)) :
    initializeStore dimension disk = createNewIndex dimension ∧
    (initializeStore dimension disk).dimension = dimension ∧
    (initializeStore dimension disk).indexDim = dimension ∧
    (initializeStore dimension disk).indexVecs = [] ∧
    (initializeStore dimension disk).documents = [] := by
  have hmain : initializeStore dimension disk = createNewIndex dimension := by
    rcases disk with ⟨di, df⟩
    cases di with
    | good a =>
      cases df with
      | good b =>
        rcases h with h1 | h2
        · exact absurd rfl (h1 a)
        · exact absurd rfl (h2 b)
      | missing => rfl
      | corrupt => rfl
    | missing => rfl
    | corrupt => rfl
  rw [hmain]
  exact ⟨rfl, rfl, rfl, rfl, rfl⟩

/-- C5 witness: a location whose index artifact is missing loads as the
fresh empty store of dimension 384. -/
theorem load_fail_open_witness :
    ((∀ a, (Disk.mk Artifact.missing (Artifact.good [])).indexFile ≠ Artifact.good a) ∨
      (∀ b, (Disk.mk Artifact.missing (Artifact.good [])).docsFile ≠ Artifact.good b)) ∧
    initializeStore 384 (Disk.mk Artifact.missing (Artifact.good [])) =
      createNewIndex 384 :=
  ⟨Or.inl (fun _ h => Artifact.noConfusion h),
   (load_fail_open 384 _ (Or.inl (fun _ h => Artifact.noConfusion h))).1⟩

/-- C6: Empty-ingest no-op.  On the empty input sequence both
`ingest_documents` and `add_documents` return the empty list and leave
the whole world (index, document mapping, disk artifacts, raw files)
untouched; the universally quantified `embedder` and `writeOk` show no
embedding call and no persistence write can be observed. -/
theorem ingest_empty_noop (embedder : List String → Except String (List (List ℚ)))
    (idGen : ℕ → String) (writeOk : Bool) (w : World) :
    ingest_documents embedder idGen writeOk w [] = (w, Except.ok []) ∧
    add_documents writeOk w [] = (w, []) :=
  ⟨rfl, rfl⟩

lemma idAssign_contents (idGen : ℕ → String) (docs : List Document) :
    (docs.enum.map
        (fun p => if p.2.id = "" then { p.2 with id := idGen p.1 } else p.2)).map
      Document.content = docs.map Document.content := by
  rw [List.map_map]
  have h1 : ∀ p ∈ docs.enum,
      (Document.content ∘ fun p : ℕ × Document =>
        if p.2.id = "" then { p.2 with id := idGen p.1 } else p.2) p =
      (Document.content ∘ Prod.snd) p := by
    intro p _
    rcases p with ⟨i, d⟩
    cases d with
    | mk i0 t0 c0 m0 e0 => by_cases h : i0 = "" <;> simp [h]
  rw [List.map_congr_left h1, ← List.map_map, List.enum_map_snd]

/-- C4: Atomic batch ingestion.  For every nonempty batch, if the
single batched embedding call fails, `ingest_documents` propagates the
failure and the world — vector index, document mapping, disk artifacts
and raw-document files — is exactly the input world: nothing was
inserted and nothing was written. -/
theorem ingest_atomic_embed_failure
    (embedder : List String → Except String (List (List ℚ))) (idGen : ℕ → String)
    (writeOk : Bool) (w : World) (docs : List Document) (e : String)
    (hne : docs ≠ [])
    (hfail : embedder (docs.map Document.content) = Except.error e) :
    ingest_documents embedder idGen writeOk w docs = (w, Except.error e) := by
  have hde : ¬(docs.isEmpty = true) := by
    simp [List.isEmpty_iff]
    exact hne
  simp only [ingest_documents, if_neg hde, idAssign_contents, hfail]

/-- C4 witness: a failing embedder on a one-document batch leaves the
fresh world untouched and propagates the error. -/
theorem ingest_atomic_embed_failure_witness :
    (([⟨"a", "t", "c", [], none⟩] : List Document) ≠ []) ∧
    failEmbedder (([⟨"a", "t", "c", [], none⟩] : List Document).map Document.content) =
      Except.error "boom" ∧
    ingest_documents failEmbedder (fun _ => "u") true (initialWorld 1)
        [⟨"a", "t", "c", [], none⟩] = (initialWorld 1, Except.error "boom") :=
  ⟨by simp, rfl,
   ingest_atomic_embed_failure failEmbedder (fun _ => "u") true (initialWorld 1)
     [⟨"a", "t", "c", [], none⟩] "boom" (by simp) rfl⟩

lemma filterMap_eq_map_filter {α β : Type} (g : α → Option β) (p : α → Bool) (h : α → β)
    (hg : ∀ a, g a = if p a then some (h a) else none) :
    ∀ l : List α, l.filterMap g = (l.filter p).map h := by
  intro l
  induction l with
  | nil => rfl
  | cons a t ih =>
    rw [List.filterMap_cons, List.filter_cons, hg a]
    cases hp : p a <;> simp [hp, ih]

/-- C7: Hydration tolerance and order preservation.  The retrieved
documents are exactly the hydratable search results, hydrated, in the
search ranking order (`filter` then `map` preserves relative order); a
result whose `get_document` lookup fails is not hydratable (skipped,
with the operation still succeeding on the rest); and every hydrated
result carries its search distance under the `similarity_score` key. -/
theorem retrieve_hydration (embedQuery : String → List ℚ) (w : World) (query : String)
    (top_k : Option ℕ) :
    retrieve_documents embedQuery w query top_k =
      ((w.store.search (embedQuery query) (effectiveTopK top_k)).filter
        (hydratable w)).map (hydrate w) ∧
    (∀ r : String × ℚ, w.store.get_document r.1 = none → hydratable w r = false) ∧
    (∀ r : String × ℚ, hydratable w r = true →
      dictGet "similarity_score" (hydrate w r) = some (Value.num r.2)) := by
  refine ⟨?_, ?_, ?_⟩
  · unfold retrieve_documents
    refine filterMap_eq_map_filter _ _ _ ?_ _
    intro r
    unfold hydratable hydrate
    rcases hg : w.store.get_document r.1 with _ | d
    · simp [hg]
    · cases hd : d.isEmpty <;> simp [hg, hd]
  · intro r hr
    unfold hydratable
    rw [hr]
  · intro r _
    exact dictGet_dictInsert_self _ _ _

/-- C7 witness: in the two-document demo store, the result for id `a`
is hydratable and its hydrated form carries the distance 5 as
`similarity_score`. -/
theorem retrieve_hydration_witness :
    hydratable demoWorld ("a", 5) = true ∧
    dictGet "similarity_score" (hydrate demoWorld ("a", 5)) = some (Value.num 5) :=
  ⟨by decide,
   (retrieve_hydration (fun _ => []) demoWorld "q" none).2.2 ("a", 5) (by decide)⟩

/-- C8: Save failure does not roll back in-memory state.  For a
nonempty batch of embedded documents with fresh distinct identifiers,
running `add_documents` with a failing `_save` still returns the full
list of added identifiers, the in-memory index and document mapping
retain the newly added entries (identical to what a successful save
would leave in memory), and only the disk is left unchanged. -/
theorem save_failure_no_rollback (w : World) (docs : List Document)
    (hne : docs ≠ [])
    (hemb : ∀ d ∈ docs, d.embedding.isSome)
    (hnd : (batchIds docs).Nodup)
    (hfr : ∀ id ∈ batchIds docs, id ∉ dictKeys w.store.documents) :
    (add_documents false w docs).2 = docs.map Document.id ∧
    ((add_documents false w docs).1).store.indexVecs =
        w.store.indexVecs ++ batchEmbeddings docs ∧
    ((add_documents false w docs).1).store.documents =
        w.store.documents ++ batchEntries docs ∧
    ((add_documents false w docs).1).disk = w.disk ∧
    ((add_documents false w docs).1).store = ((add_documents true w docs).1).store := by
  have hsome : batchEmbeddings docs ≠ [] := by
    rcases docs with _ | ⟨d, t⟩
    · exact absurd rfl hne
    · exact batchEmbeddings_ne_nil t (hemb d (List.mem_cons_self d t))
  have heq := add_documents_eq false w docs hne hsome hnd hfr
  refine ⟨?_, ?_, ?_, ?_, ?_⟩
  · rw [heq]
    exact batchIds_of_all_some docs hemb
  · rw [heq]
  · rw [heq]
  · rw [heq]
    rfl
  · exact (add_documents_mem_writeOk w docs).1

/-- C8 witness: adding one embedded document to the fresh store with a
failing save still returns its id and leaves the disk artifacts
untouched. -/
theorem save_failure_no_rollback_witness :
    (add_documents false (initialWorld 1) [demoDoc "a" 0]).2 =
      ([demoDoc "a" 0].map Document.id) ∧
    ((add_documents false (initialWorld 1) [demoDoc "a" 0]).1).disk =
      (initialWorld 1).disk :=
  ⟨(save_failure_no_rollback (initialWorld 1) [demoDoc "a" 0] (by simp) (by decide)
      (by decide) (by decide)).1,
   (save_failure_no_rollback (initialWorld 1) [demoDoc "a" 0] (by simp) (by decide)
      (by decide) (by decide)).2.2.2.1⟩

/-- C9: Answer generation never raises.  `generate_answer` is a total
function into answer strings: with no API key it returns the fixed
configuration-error text, on an upstream exception it returns the
error-indicating text, on success the stripped answer; and
`process_query` returns the retrieved documents unchanged alongside
whatever answer text came out, for any context-document list including
the empty one. -/
theorem generate_answer_graceful (apiKey : Option String)
    (chatCompletion : String → String → Except String String)
    (embedQuery : String → List ℚ) (w : World) (query : String)
    (contextDocs : List DocDict) (elaborate : Bool) (top_k : Option ℕ) (elapsed : ℚ) :
    (apiKey = none →
      generate_answer apiKey chatCompletion query contextDocs elaborate =
        "Error: OpenAI API key not configured. Please set OPENAI_API_KEY.") ∧
    (∀ key e, apiKey = some key →
      chatCompletion (createSystemPrompt elaborate)
          (createUserPrompt query (prepareContext contextDocs)) = Except.error e →
      generate_answer apiKey chatCompletion query contextDocs elaborate =
        "Error generating answer: " ++ e) ∧
    (∀ key a, apiKey = some key →
      chatCompletion (createSystemPrompt elaborate)
          (createUserPrompt query (prepareContext contextDocs)) = Except.ok a →
      generate_answer apiKey chatCompletion query contextDocs elaborate = a.trim) ∧
    (process_query embedQuery apiKey chatCompletion w query top_k elaborate
        elapsed).retrieved_documents =
      (retrieve_documents embedQuery w query top_k).map toRetrievedDocument := by
  refine ⟨?_, ?_, ?_, rfl⟩
  · intro h
    subst h
    rfl
  · intro key e hk hc
    subst hk
    simp only [generate_answer, hc]
  · intro key a hk hc
    subst hk
    simp only [generate_answer, hc]

/-- C9 witness: with no API key configured, the answer is the fixed
error text (no exception), even for the empty context list. -/
theorem generate_answer_graceful_witness :
    (none : Option String) = none ∧
    generate_answer none (fun _ _ => Except.ok "hi") "q" [] false =
      "Error: OpenAI API key not configured. Please set OPENAI_API_KEY." :=
  ⟨rfl,
   (generate_answer_graceful none (fun _ _ => Except.ok "hi") (fun _ => [])
     (initialWorld 1) "q" [] false none 0).1 rfl⟩

/-- C10: `retrieve_documents` treats every falsy `top_k` alike: for
`top_k = 0` it substitutes the configured default `TOP_K_RETRIEVAL`
exactly as for `None`, so that a caller requesting zero results can
receive the default number of documents (the demo store returns
`TOP_K_RETRIEVAL` documents for `top_k = 0`); by contrast, passing `0`
directly to `VectorStore.search` yields the empty result on every
store. -/
theorem topk_zero_uses_default (embedQuery : String → List ℚ) (w : World)
    (query : String) :
    retrieve_documents embedQuery w query (some 0) =
      retrieve_documents embedQuery w query none ∧
    effectiveTopK (some 0) = Settings.TOP_K_RETRIEVAL ∧
    (∀ (s : VectorStore) (qe : List ℚ), s.search qe 0 = []) ∧
    (retrieve_documents (fun _ => [0]) demoWorldDirect "q" (some 0)).length =
      Settings.TOP_K_RETRIEVAL := by
  refine ⟨rfl, rfl, ?_, ?_⟩
  · intro s qe
    unfold VectorStore.search
    split
    · rfl
    · simp [faissSearch, Nat.zero_min]
  · norm_num [retrieve_documents, effectiveTopK, Settings.TOP_K_RETRIEVAL,
      VectorStore.search, faissSearch, sqDist, distRank, demoWorldDirect, demoStoreDirect,
      VectorStore.get_document, dictGet, dictKeys, demoDoc, Document.dictNoEmbedding,
      List.filterMap_cons]
    decide

end RagPubmed
